import Mathlib

/-!
Shallow embedding of the query/normalize/filter pipeline of `src/app.py`
(a Streamlit + pandas demo application).  Machine-level caveats of the
embedding, stated once here:

* A pandas cell of a text column is modelled as `Option String`; the
  missing value `NaN` is `none`.  `Series.astype(str)` renders `NaN` as
  the string "nan" (`astypeStr` below).
* `Series.str.contains(q)` interprets `q` as a Python regular expression
  (its default `regex=True`).  The embedding `containsSub` models the
  fragment where `q` contains no regex metacharacter, on which regex
  search coincides with plain substring containment (`isRegexLiteral`
  names that fragment).  Queries outside the fragment either raise
  (invalid patterns — see the C4 record) or match non-substrings.
* `DataFrame.sort_values("Año", ascending=False)` sorts by year
  descending with `NaN` last (`na_position="last"` is the pandas
  default).  Its default `kind="quicksort"` does not promise stability;
  the embedding `sortPorAnioDesc` uses a stable insertion sort, one
  admissible refinement of the pandas contract (see the C3 record).
* Fallible Python code (IndexError on `metadata[key][0]` with an empty
  list, TypeError on `"; ".join` over `None` entries) is embedded in
  `Except String`, the error string naming the Python exception.
-/

/-- `isPrefixList n h` is true when the character list `n` starts `h`
(the comparison step of Python substring search). -/
def isPrefixList : List Char → List Char → Bool
  | [], _ => true
  | _ :: _, [] => false
  | a :: as, b :: bs => a == b && isPrefixList as bs

/-- `containsSub n h` is true when `n` occurs as a contiguous run inside
`h`: the meaning of Python `n in h` on strings, and of
`Series.str.contains` for patterns free of regex metacharacters. -/
def containsSub : List Char → List Char → Bool
  | n, [] => n.isEmpty
  | n, b :: t => isPrefixList n (b :: t) || containsSub n t

/-- String form of `containsSub`. -/
def containsSubStr (needle hay : String) : Bool :=
  containsSub needle.toList hay.toList

/-- Characters with a special meaning in Python regular expressions.
`Series.str.contains` (default `regex=True`) treats the query as a
regex; on queries avoiding these characters it is substring search. -/
def regexSpecialChars : List Char :=
  ['.', '^', '$', '*', '+', '?', '\\', '|', '(', ')', '[', ']', '\x7b', '\x7d']

/-- Queries on which `Series.str.contains` agrees with plain substring
containment: no regex metacharacter occurs. -/
def isRegexLiteral (q : String) : Bool :=
  q.toList.all (fun c => !(regexSpecialChars.contains c))

/-- Python `str.lower()` on the modelled (ASCII) fragment: per-character
lowering of the character list. -/
def lowerChars (s : String) : List Char :=
  s.toList.map Char.toLower

/-- `Series.astype(str)` on a text cell: a present string is kept, the
pandas missing value `NaN` renders as the string "nan". -/
def astypeStr : Option String → String
  | some s => s
  | none => "nan"

/-- Canonical record shape: one row of the DataFrames the app builds,
with columns Título, Año, País, Enlace, PalabrasClave.  Every field is
optional (`NaN` / `None` in the source). -/
structure Record where
  titulo : Option String
  anio : Option Int
  pais : Option String
  enlace : Option String
  palabrasClave : Option String
deriving DecidableEq, Repr

/-- A pandas DataFrame as the local pipeline sees it: which of the four
named columns exist, and the rows.  (A cell of a column the frame does
not have is meaningless; well-formed frames carry `none` there.) -/
structure LocalDF where
  hasTitulo : Bool
  hasAnio : Bool
  hasPais : Bool
  hasPalabras : Bool
  rows : List Record
deriving DecidableEq, Repr

/-- `pd.DataFrame()`: the empty frame the early returns of
`buscar_localmente` produce. -/
def emptyDF : LocalDF := ⟨false, false, false, false, []⟩

/-- The three text columns `buscar_localmente` searches, in the order of
its loop `for col in ["Título", "País", "PalabrasClave"]`. -/
inductive Col where
  | titulo
  | pais
  | palabras
deriving DecidableEq, Repr

/-- `col in df.columns` for the three searched text columns. -/
def colPresente (df : LocalDF) : Col → Bool
  | Col.titulo => df.hasTitulo
  | Col.pais => df.hasPais
  | Col.palabras => df.hasPalabras

/-- The `columnas_texto` list built by `buscar_localmente`: the searched
columns that exist in the frame, in loop order. -/
def columnas_texto (df : LocalDF) : List Col :=
  [Col.titulo, Col.pais, Col.palabras].filter (colPresente df)

/-- The cell of a row in one of the three searched columns. -/
def cellOf (r : Record) : Col → Option String
  | Col.titulo => r.titulo
  | Col.pais => r.pais
  | Col.palabras => r.palabrasClave

/-- One cell's contribution to the search mask:
`df[col].astype(str).str.lower().str.contains(q)` at one row, for the
already lower-cased query `ql` (regex-literal fragment). -/
def cellMatch (ql : List Char) (cell : Option String) : Bool :=
  containsSub ql (lowerChars (astypeStr cell))

/-- One row of the accumulated mask `mask = False; for col in
columnas_texto: mask = mask | df[col]...str.contains(q)`: a fold of
boolean OR over the present text columns, starting from `False`. -/
def maskRow (ql : List Char) (cols : List Col) (r : Record) : Bool :=
  cols.foldl (fun m c => m || cellMatch ql (cellOf r c)) false

/-- `df[mask]`: keep the rows whose mask entry is true, in order. -/
def selectByMask : List Record → List Bool → List Record
  | [], _ => []
  | _ :: _, [] => []
  | r :: rs, b :: bs => if b then r :: selectByMask rs bs else selectByMask rs bs

/-- The sort key of `sort_values("Año", ascending=False)`: `x` may come
before `y` when `x`'s year is at least `y`'s, a missing year (`NaN`)
sorting after every present year (pandas default `na_position="last"`).
Ties leave the order free; the embedding resolves them stably. -/
def leAnioDesc (x y : Record) : Bool :=
  match x.anio, y.anio with
  | some a, some b => b ≤ a
  | some _, none => true
  | none, some _ => false
  | none, none => true

/-- `resultados.sort_values("Año", ascending=False)`, embedded as a
stable insertion sort on the key `leAnioDesc`. -/
def sortPorAnioDesc (rows : List Record) : List Record :=
  List.insertionSort (fun x y => leAnioDesc x y = true) rows

/-- `buscar_localmente(query, df, max_results)` of `src/app.py` lines
57–90: empty query or empty frame return `pd.DataFrame()`; otherwise
lower-case the query, OR a containment mask over the present text
columns, subset, sort by year descending when the `Año` column exists,
and truncate with `head(max_results)`. -/
def buscar_localmente (query : String) (df : LocalDF) (max_results : Nat) : LocalDF :=
  if query = "" || df.rows.isEmpty then emptyDF
  else
    let q := lowerChars query
    let cols := columnas_texto df
    if cols.isEmpty then emptyDF
    else
      let mask := df.rows.map (maskRow q cols)
      let resultados := selectByMask df.rows mask
      let ordenados := if df.hasAnio then sortPorAnioDesc resultados else resultados
      { df with rows := ordenados.take max_results }

/-- The match list of `buscar_localmente` before sorting and truncation:
the rows `df[mask]` keeps (empty under any early return). -/
def matchesLocal (query : String) (df : LocalDF) : List Record :=
  if query = "" || df.rows.isEmpty || (columnas_texto df).isEmpty then []
  else selectByMask df.rows (df.rows.map (maskRow (lowerChars query) (columnas_texto df)))

/-- The spec's §4.2 match predicate, written from the spec's words for
comparison with the code: the lower-cased query appears in at least one
of title, country, keywords, treating an ABSENT FIELD AS THE EMPTY
STRING. -/
def claimMatch (query : String) (r : Record) : Bool :=
  let ql := lowerChars query
  containsSub ql (lowerChars (r.titulo.getD "")) ||
    containsSub ql (lowerChars (r.pais.getD "")) ||
    containsSub ql (lowerChars (r.palabrasClave.getD ""))

/-- What the code actually requires of a returned row: the lower-cased
query occurs in the `astype(str)` rendering (absent field ↦ "nan") of
title, country or keywords. -/
def codeMatch (query : String) (r : Record) : Bool :=
  let ql := lowerChars query
  cellMatch ql r.titulo || cellMatch ql r.pais || cellMatch ql r.palabrasClave

/-- Decimal integer parse of a character list: optional leading minus
sign, then a non-empty run of digits; anything else fails. -/
def parseIntChars : List Char → Option Int
  | [] => none
  | '-' :: rest =>
    if rest ≠ [] && rest.all Char.isDigit then
      some (-(rest.foldl (fun a c => a * 10 + (c.toNat - 48)) 0 : Nat))
    else none
  | l =>
    if l.all Char.isDigit then
      some ((l.foldl (fun a c => a * 10 + (c.toNat - 48)) 0 : Nat))
    else none

/-- `pd.to_numeric(column, errors="coerce")` at one cell of the `Año`
column (`cargar_datos_locales`, lines 44–49), for the integer-year
cells the CSV carries: numeric text parses, anything else coerces to
the missing value, never raising. -/
def to_numeric_coerce (cell : Option String) : Option Int :=
  cell.bind (fun s => parseIntChars s.toList)

/-- A remote metadata mapping: qualified field name to the ordered list
of its entries, each entry carrying an optional "value" string (the
shape `{k: [{"value": v}, ...]}` of the DSpace response). -/
abbrev Metadata : Type := List (String × List (Option String))

/-- `key in metadata` / `metadata[key]` of a Python dict. -/
def lookupMeta : Metadata → String → Option (List (Option String))
  | [], _ => none
  | (k, vs) :: rest, key => if k = key then some vs else lookupMeta rest key

/-- One object of the parsed response: its `metadata` mapping, `handle`
and display `name`, as `buscar_en_cgspace_api` reads them. -/
structure RemoteObject where
  metadata : Metadata
  handle : Option String
  name : Option String

/-- `v[:4].isdigit()` guarded by `len(v) >= 4`: the year-prefix test of
the remote year chain. -/
def parse4Ok (v : String) : Bool :=
  v.toList.length ≥ 4 && (v.toList.take 4).all Char.isDigit

/-- `int(v[:4])` under the `parse4Ok` guard: decimal value of the first
four characters. -/
def dec4 (v : String) : Int :=
  ((v.toList.take 4).foldl (fun a c => a * 10 + (c.toNat - 48)) 0 : Nat)

/-- The year fallback loop (lines 142–149): try each date key in order;
a present key reads its FIRST entry (IndexError when the list is
empty), takes its value with default "", and only a 4-digit-prefixed
value sets the year and breaks; otherwise the loop continues. -/
def anioChain (md : Metadata) : List String → Except String (Option Int)
  | [] => Except.ok none
  | key :: rest =>
    match lookupMeta md key with
    | none => anioChain md rest
    | some [] => Except.error "IndexError"
    | some (e :: _) =>
      let v := e.getD ""
      if parse4Ok v then Except.ok (some (dec4 v)) else anioChain md rest

/-- The country fallback loop (lines 151–156): the FIRST PRESENT key
wins on presence alone; its first entry's value (possibly `None`) is
taken and the loop breaks unconditionally. -/
def paisChain (md : Metadata) : List String → Except String (Option String)
  | [] => Except.ok none
  | key :: rest =>
    match lookupMeta md key with
    | none => paisChain md rest
    | some [] => Except.error "IndexError"
    | some (e :: _) => Except.ok e

/-- The keywords fallback loop (lines 159–163): the first present key
wins; ALL its entries' values are collected (an empty list is fine
here, the comprehension never indexes). -/
def palabrasChain (md : Metadata) : List String → List (Option String)
  | [] => []
  | key :: rest =>
    match lookupMeta md key with
    | none => palabrasChain md rest
    | some entries => entries

/-- `"; ".join(palabras) if palabras else None` (line 171): the empty
list becomes `None`; a `None` element makes `join` raise TypeError. -/
def joinPalabras (palabras : List (Option String)) : Except String (Option String) :=
  if palabras.isEmpty then Except.ok none
  else if palabras.all Option.isSome then
    Except.ok (some (String.intercalate "; " (palabras.filterMap id)))
  else Except.error "TypeError"

/-- The title extraction (lines 134–140): `dc.title` first (reading
entry 0 — IndexError on an empty list), then `dcterms.title`, else the
top-level display name. -/
def tituloDe (obj : RemoteObject) : Except String (Option String) :=
  match lookupMeta obj.metadata "dc.title" with
  | some [] => Except.error "IndexError"
  | some (e :: _) => Except.ok e
  | none =>
    match lookupMeta obj.metadata "dcterms.title" with
    | some [] => Except.error "IndexError"
    | some (e :: _) => Except.ok e
    | none => Except.ok obj.name

/-- The candidate keys of the year chain, in source order. -/
def anioKeys : List String := ["dcterms.issued", "dc.date.issued"]

/-- The candidate keys of the country chain, in source order. -/
def paisKeys : List String := ["cg.country", "cg.coverage.country", "dc.coverage.spatial"]

/-- The candidate keys of the keywords chain, in source order. -/
def palabrasKeys : List String := ["cg.subject", "dc.subject", "dcterms.subject"]

/-- Normalization of one remote object into a row of the result frame
(`buscar_en_cgspace_api`, lines 127–173): link from the handle (a falsy
handle yields `None`), then the four fallback chains.  `Except` carries
the Python exceptions the chains can raise. -/
def normalizeRemote (obj : RemoteObject) : Except String Record := do
  let enlace :=
    match obj.handle with
    | some h => if h = "" then none else some ("https://cgspace.cgiar.org/handle/" ++ h)
    | none => none
  let titulo ← tituloDe obj
  let anio ← anioChain obj.metadata anioKeys
  let pais ← paisChain obj.metadata paisKeys
  let palabrasClave ← joinPalabras (palabrasChain obj.metadata palabrasKeys)
  Except.ok ⟨titulo, anio, pais, enlace, palabrasClave⟩

/-- Well-formedness of a metadata mapping under which the normalizer
cannot raise: every present key carries a non-empty entry list, and
every entry carries a value. -/
def metaWF (md : Metadata) : Bool :=
  md.all (fun kv => !kv.2.isEmpty && kv.2.all Option.isSome)

/-- `df_res["Año"] >= lo` at one row: a missing year compares false. -/
def geAnioB (lo : Int) (r : Record) : Bool :=
  match r.anio with
  | some y => lo ≤ y
  | none => false

/-- `df_res["Año"] <= hi` at one row: a missing year compares false. -/
def leAnioB (hi : Int) (r : Record) : Bool :=
  match r.anio with
  | some y => y ≤ hi
  | none => false

/-- The year slider filter (lines 312–315):
`df_res[(df_res["Año"] >= lo) & (df_res["Año"] <= hi)]`, two comparison
masks combined with `&` and used to subset the frame. -/
def filterByYearRange (rows : List Record) (lo hi : Int) : List Record :=
  selectByMask rows (List.zipWith and (rows.map (geAnioB lo)) (rows.map (leAnioB hi)))

/-- `df_res["País"].isin(paises_sel)` at one row: a missing country is
in no selection. -/
def isinPais (sel : List String) (r : Record) : Bool :=
  match r.pais with
  | some p => sel.contains p
  | none => false

/-- The country filter (lines 332–333): applied only when the selection
is non-empty (`if paises_sel:`), it subsets by the `isin` mask. -/
def filterByCountries (rows : List Record) (sel : List String) : List Record :=
  if sel.isEmpty then rows
  else selectByMask rows (rows.map (isinPais sel))

/-- `Series.unique()`: the distinct values in first-seen order. -/
def uniqueAux (seen : List String) : List String → List String
  | [] => []
  | x :: xs => if x ∈ seen then uniqueAux seen xs else x :: uniqueAux (x :: seen) xs

/-- `Series.unique().tolist()` of a column's present values. -/
def uniqueVals (l : List String) : List String := uniqueAux [] l

/-- Python `sorted` on strings, embedded as an insertion sort under the
lexicographic order (only its permutation property is used below). -/
def sortStr (l : List String) : List String :=
  List.insertionSort (fun a b : String => ¬ b < a) l

/-- `sorted(df_res["País"].dropna().unique().tolist())` (line 325): the
option list of the country multiselect. -/
def paisesUnicos (rows : List Record) : List String :=
  sortStr (uniqueVals (rows.filterMap Record.pais))

/-- The país filter block (lines 324–333) in the scenario the C6 claim
describes: the multiselect keeps its default, the full distinct-country
list, and the filter runs whenever that list is non-empty. -/
def filtroPaisTodoSeleccionado (rows : List Record) : List Record :=
  let sel := paisesUnicos rows
  if sel.isEmpty then rows else filterByCountries rows sel

/-- One chat message of `st.session_state.messages`. -/
structure Msg where
  role : String
  content : String
deriving DecidableEq, Repr

/-- The session state the turn touches: the transcript and
`st.session_state.results_df`. -/
structure SessionState where
  messages : List Msg
  results_df : LocalDF
deriving DecidableEq, Repr

/-- The info the `except Exception as e` branch renders:
`type(e).__name__` and `str(e)`. -/
structure ErrInfo where
  name : String
  msg : String
deriving DecidableEq, Repr

/-- The assistant reply of the `except` branch (lines 219–223), naming
the error kind and suggesting the local backend. -/
def respuestaError (e : ErrInfo) : String :=
  "Intenté conectarme a la **API de CGSpace**, pero hubo un error.\n\n" ++
    "Mensaje técnico: `" ++ e.name ++ ": " ++ e.msg ++ "`\n\n" ++
    "Puedes cambiar a *CSV local (demo estable)* en el menú lateral para seguir usando el agente."

/-- `min` of the present years of the result frame. -/
def minAnios : List Int → Option Int
  | [] => none
  | x :: xs => some (xs.foldl min x)

/-- `max` of the present years of the result frame. -/
def maxAnios : List Int → Option Int
  | [] => none
  | x :: xs => some (xs.foldl max x)

/-- The no-results reply (lines 231–242). -/
def respuestaSinResultados (fuente_local : Bool) : String :=
  let msg_origen :=
    if fuente_local then "subconjunto local de CGSpace (CSV de ejemplo)" else "API de CGSpace"
  "He buscado en el **" ++ msg_origen ++ "** y no encontré documentos " ++
    "relacionados con esa consulta.\n\n" ++
    "Si crees que debería haber resultados, prueba con otras palabras clave " ++
    "o ajusta los filtros de país/año."

/-- The non-empty reply (lines 243–275): count, year range (min–max of
the present years, or "N/D"), distinct countries in first-seen order
(or "N/D"), and the first three present titles. -/
def respuestaConResultados (fuente_local : Bool) (df : LocalDF) : String :=
  let n := df.rows.length
  let anios := df.rows.filterMap Record.anio
  let rango_anios :=
    if df.hasAnio && !anios.isEmpty then
      match minAnios anios, maxAnios anios with
      | some lo, some hi => toString lo ++ "–" ++ toString hi
      | _, _ => "N/D"
    else "N/D"
  let paises :=
    if df.hasPais then
      let joined := String.intercalate ", " (uniqueVals (df.rows.filterMap Record.pais))
      if joined = "" then "N/D" else joined
    else "N/D"
  let titulos_ejemplo :=
    "- " ++ String.intercalate "\n- " ((df.rows.filterMap Record.titulo).take 3)
  let origen := if fuente_local then "subconjunto local (CSV)" else "API de CGSpace"
  "He encontrado **" ++ toString n ++ "** documentos en la fuente **" ++ origen ++ "**.\n\n" ++
    "- Rango de años en los resultados: **" ++ rango_anios ++ "**\n" ++
    "- Países presentes: **" ++ paises ++ "**\n\n" ++
    "Algunos títulos de ejemplo:\n" ++ titulos_ejemplo ++ "\n\n" ++
    "Puedes refinar por año o país en el panel de la derecha."

/-- The reply construction of the `else` branch (lines 230–275). -/
def construirRespuesta (fuente_local : Bool) (df : LocalDF) : String :=
  if df.rows.isEmpty then respuestaSinResultados fuente_local
  else respuestaConResultados fuente_local df

/-- One user turn of the SessionController (lines 205–279), the search
call's outcome passed in: append the user message; on an exception,
append only the error reply (the `except` branch also rebinds the local
`df_resultados`, touching no session state); on success, replace
`results_df` wholesale and append the summary reply. -/
def turn (fuente_local : Bool) (s : SessionState) (user_input : String)
    (outcome : Except ErrInfo LocalDF) : SessionState :=
  let s1 : SessionState := { s with messages := s.messages ++ [⟨"user", user_input⟩] }
  match outcome with
  | Except.error e =>
    { s1 with messages := s1.messages ++ [⟨"assistant", respuestaError e⟩] }
  | Except.ok df =>
    { messages := s1.messages ++ [⟨"assistant", construirRespuesta fuente_local df⟩],
      results_df := df }

/-- The spec's reading of the year slider: the year is present and lies
in the inclusive range. -/
def anioEnRango (lo hi : Int) (r : Record) : Bool :=
  match r.anio with
  | some y => lo ≤ y && y ≤ hi
  | none => false

theorem isPrefixList_self_append (n t : List Char) : isPrefixList n (n ++ t) = true := by
  induction n with
  | nil => rfl
  | cons a as ih => simp [isPrefixList, ih]

theorem containsSub_of_isPrefixList {n h : List Char} (hp : isPrefixList n h = true) :
    containsSub n h = true := by
  cases h with
  | nil =>
    cases n with
    | nil => rfl
    | cons a as => simp [isPrefixList] at hp
  | cons b t => simp [containsSub, hp]

theorem containsSub_self_append (n t : List Char) : containsSub n (n ++ t) = true :=
  containsSub_of_isPrefixList (isPrefixList_self_append n t)

theorem containsSub_append_left {n t : List Char} (s : List Char)
    (h : containsSub n t = true) : containsSub n (s ++ t) = true := by
  induction s with
  | nil => simpa using h
  | cons c cs ih => simp [containsSub, ih]

theorem toList_append (x y : String) : (x ++ y).toList = x.toList ++ y.toList :=
  String.data_append x y

theorem selectByMask_map_eq_filter (f : Record → Bool) (rows : List Record) :
    selectByMask rows (rows.map f) = rows.filter f := by
  induction rows with
  | nil => rfl
  | cons r rs ih =>
    by_cases h : f r = true
    · simp [selectByMask, List.filter, h, ih]
    · simp only [Bool.not_eq_true] at h
      simp [selectByMask, List.filter, h, ih]

theorem mem_selectByMask {r : Record} : ∀ (rows : List Record) (bs : List Bool),
    r ∈ selectByMask rows bs → r ∈ rows
  | [], _, h => by simp [selectByMask] at h
  | _ :: _, [], h => by simp [selectByMask] at h
  | x :: rows, b :: bs, h => by
    by_cases hb : b = true
    · subst hb
      simp only [selectByMask, if_true] at h
      rcases List.mem_cons.mp h with h1 | h1
      · exact h1 ▸ List.mem_cons_self x rows
      · exact List.mem_cons_of_mem x (mem_selectByMask rows bs h1)
    · simp only [Bool.not_eq_true] at hb
      subst hb
      simp only [selectByMask, if_false, Bool.false_eq_true] at h
      exact List.mem_cons_of_mem x (mem_selectByMask rows bs h)

theorem foldl_or_eq_any (g : Col → Bool) (l : List Col) :
    ∀ b : Bool, l.foldl (fun m c => m || g c) b = (b || l.any g) := by
  induction l with
  | nil => intro b; simp
  | cons c cs ih =>
    intro b
    simp only [List.foldl, List.any, ih (b || g c)]
    cases b <;> cases g c <;> simp

theorem zipWith_and_map (f g : Record → Bool) (l : List Record) :
    List.zipWith and (l.map f) (l.map g) = l.map (fun x => f x && g x) := by
  induction l with
  | nil => rfl
  | cons x xs ih => simp [ih]

theorem orderedInsert_of_forall {r : Record → Record → Prop} [DecidableRel r]
    {x : Record} {l : List Record} (h : ∀ y ∈ l, r x y) :
    List.orderedInsert r x l = x :: l := by
  cases l with
  | nil => rfl
  | cons y ys => simp [List.orderedInsert, h y (List.mem_cons_self y ys)]

theorem insertionSort_of_forall {r : Record → Record → Prop} [DecidableRel r]
    {l : List Record} (h : ∀ x ∈ l, ∀ y ∈ l, r x y) :
    List.insertionSort r l = l := by
  induction l with
  | nil => rfl
  | cons x xs ih =>
    have hxs : ∀ a ∈ xs, ∀ b ∈ xs, r a b := fun a ha b hb =>
      h a (List.mem_cons_of_mem x ha) b (List.mem_cons_of_mem x hb)
    have hx2 : ∀ y ∈ xs, r x y := fun y hy =>
      h x (List.mem_cons_self x xs) y (List.mem_cons_of_mem x hy)
    simp [List.insertionSort, ih hxs, orderedInsert_of_forall hx2]

theorem mem_uniqueAux {a : String} : ∀ (seen : List String) (l : List String),
    a ∈ l → a ∉ seen → a ∈ uniqueAux seen l
  | _, [], h, _ => by simp at h
  | seen, x :: xs, h, hseen => by
    by_cases hx : a = x
    · subst hx
      simp [uniqueAux, hseen, List.mem_cons_self]
    · have hmem : a ∈ xs := by
        rcases List.mem_cons.mp h with h1 | h1
        · exact absurd h1 hx
        · exact h1
      by_cases hc : x ∈ seen
      · simp only [uniqueAux, hc, if_true]
        exact mem_uniqueAux seen xs hmem hseen
      · simp only [uniqueAux, hc, if_false]
        refine List.mem_cons_of_mem x (mem_uniqueAux (x :: seen) xs hmem ?_)
        intro hin
        rcases List.mem_cons.mp hin with h2 | h2
        · exact hx h2
        · exact hseen h2

theorem mem_sortStr {a : String} {l : List String} (h : a ∈ l) : a ∈ sortStr l :=
  (List.mem_insertionSort _).mpr h

/-- The spec's reading of the country filter: the country is present
and belongs to the selection. -/
def paisClaim (sel : List String) (r : Record) : Bool :=
  match r.pais with
  | some p => decide (p ∈ sel)
  | none => false

/-- A row all of whose searched fields are missing (`NaN`). -/
def rNaN : Record := ⟨none, none, none, none, none⟩

/-- A one-row frame, all four columns present, the row all-`NaN`. -/
def dfNaN : LocalDF := ⟨true, true, true, true, [rNaN]⟩

/-- The row of the spec's end-to-end scenario 1. -/
def rCoffee : Record := ⟨some "Coffee rust in Colombia", some 2021, some "Colombia", none, none⟩

/-- A one-row frame holding `rCoffee`, all four columns present. -/
def dfCoffee : LocalDF := ⟨true, true, true, true, [rCoffee]⟩

/-- Claim C1 fails on the code: `astype(str)` renders a missing field as
the string "nan", not the empty string, so the query "nan" returns the
all-absent row, which the spec's match predicate (absent ↦ "") rejects. -/
theorem c1_match_predicate_cex :
    rNaN ∈ (buscar_localmente "nan" dfNaN 200).rows ∧ claimMatch "nan" rNaN = false := by
  decide

/-- Claim C1 (amended): for every query free of regex metacharacters
(`str.contains` treats the query as a regex), every Record the local
search returns contains the lower-cased query in the lower-cased
`astype(str)` rendering of its title, country or keywords, a missing
field rendering as "nan". -/
theorem c1_match_predicate_amended :
    ∀ (query : String) (df : LocalDF) (max_results : Nat) (r : Record),
      isRegexLiteral query = true →
      r ∈ (buscar_localmente query df max_results).rows →
      codeMatch query r = true := by
  intro query df max_results r _hlit hmem
  unfold buscar_localmente at hmem
  by_cases hg : (decide (query = "") || df.rows.isEmpty) = true
  · rw [if_pos hg] at hmem
    simp [emptyDF] at hmem
  · rw [if_neg hg] at hmem
    by_cases hcols : (columnas_texto df).isEmpty = true
    · rw [if_pos hcols] at hmem
      simp [emptyDF] at hmem
    · rw [if_neg hcols] at hmem
      have hmem2 : r ∈ (if df.hasAnio = true then
          sortPorAnioDesc (selectByMask df.rows
            (df.rows.map (maskRow (lowerChars query) (columnas_texto df))))
        else selectByMask df.rows
            (df.rows.map (maskRow (lowerChars query) (columnas_texto df)))).take
          max_results := hmem
      have h2 : r ∈ selectByMask df.rows
          (df.rows.map (maskRow (lowerChars query) (columnas_texto df))) := by
        by_cases hA : df.hasAnio = true
        · rw [if_pos hA] at hmem2
          exact (List.mem_insertionSort _).mp (List.mem_of_mem_take hmem2)
        · rw [if_neg hA] at hmem2
          exact List.mem_of_mem_take hmem2
      rw [selectByMask_map_eq_filter] at h2
      have h3 := (List.mem_filter.mp h2).2
      rw [maskRow, foldl_or_eq_any] at h3
      simp only [Bool.false_or] at h3
      obtain ⟨c, -, hc⟩ := List.any_eq_true.mp h3
      simp only [codeMatch, Bool.or_eq_true]
      cases c
      · exact Or.inl (Or.inl hc)
      · exact Or.inl (Or.inr hc)
      · exact Or.inr hc

/-- Concrete instance of the amended C1: the query "coffee" is
regex-literal, the scenario-1 row is returned, and it satisfies the
code's match predicate. -/
theorem c1_match_predicate_witness : codeMatch "coffee" rCoffee = true :=
  c1_match_predicate_amended "coffee" dfCoffee 200 rCoffee (by decide) (by decide)

theorem lookupMeta_mem : ∀ (md : Metadata) (k : String) (vs : List (Option String)),
    lookupMeta md k = some vs → (k, vs) ∈ md
  | [], _, _, h => by simp [lookupMeta] at h
  | (k0, vs0) :: rest, k, vs, h => by
    simp only [lookupMeta] at h
    by_cases hk : k0 = k
    · rw [if_pos hk] at h
      cases hk
      cases Option.some.inj h
      exact List.mem_cons_self _ _
    · rw [if_neg hk] at h
      exact List.mem_cons_of_mem _ (lookupMeta_mem rest k vs h)

theorem wf_lookup {md : Metadata} {k : String} {vs : List (Option String)}
    (hwf : metaWF md = true) (h : lookupMeta md k = some vs) :
    vs ≠ [] ∧ vs.all Option.isSome = true := by
  have hm := lookupMeta_mem md k vs h
  have hv := (List.all_eq_true.mp hwf) (k, vs) hm
  simp only [Bool.and_eq_true, Bool.not_eq_true'] at hv
  refine ⟨?_, hv.2⟩
  intro hnil
  rw [hnil] at hv
  simp at hv

theorem anioChain_isOk {md : Metadata} (hwf : metaWF md = true) :
    ∀ keys : List String, ∃ v, anioChain md keys = Except.ok v := by
  intro keys
  induction keys with
  | nil => exact ⟨none, rfl⟩
  | cons key rest ih =>
    cases hl : lookupMeta md key with
    | none =>
      obtain ⟨v, hv⟩ := ih
      exact ⟨v, by simp [anioChain, hl, hv]⟩
    | some vs =>
      obtain ⟨hne, _⟩ := wf_lookup hwf hl
      obtain ⟨e, es, rfl⟩ := List.exists_cons_of_ne_nil hne
      by_cases hp : parse4Ok (e.getD "") = true
      · exact ⟨some (dec4 (e.getD "")), by simp [anioChain, hl, hp]⟩
      · simp only [Bool.not_eq_true] at hp
        obtain ⟨v, hv⟩ := ih
        exact ⟨v, by simp [anioChain, hl, hp, hv]⟩

theorem paisChain_isOk {md : Metadata} (hwf : metaWF md = true) :
    ∀ keys : List String, ∃ v, paisChain md keys = Except.ok v := by
  intro keys
  induction keys with
  | nil => exact ⟨none, rfl⟩
  | cons key rest ih =>
    cases hl : lookupMeta md key with
    | none =>
      obtain ⟨v, hv⟩ := ih
      exact ⟨v, by simp [paisChain, hl, hv]⟩
    | some vs =>
      obtain ⟨hne, _⟩ := wf_lookup hwf hl
      obtain ⟨e, es, rfl⟩ := List.exists_cons_of_ne_nil hne
      exact ⟨e, by simp [paisChain, hl]⟩

theorem tituloDe_isOk {obj : RemoteObject} (hwf : metaWF obj.metadata = true) :
    ∃ v, tituloDe obj = Except.ok v := by
  unfold tituloDe
  cases h1 : lookupMeta obj.metadata "dc.title" with
  | some vs =>
    obtain ⟨hne, _⟩ := wf_lookup hwf h1
    obtain ⟨e, es, rfl⟩ := List.exists_cons_of_ne_nil hne
    exact ⟨e, rfl⟩
  | none =>
    cases h2 : lookupMeta obj.metadata "dcterms.title" with
    | some vs =>
      obtain ⟨hne, _⟩ := wf_lookup hwf h2
      obtain ⟨e, es, rfl⟩ := List.exists_cons_of_ne_nil hne
      exact ⟨e, rfl⟩
    | none => exact ⟨obj.name, rfl⟩

theorem palabrasChain_all {md : Metadata} (hwf : metaWF md = true) :
    ∀ keys : List String, (palabrasChain md keys).all Option.isSome = true := by
  intro keys
  induction keys with
  | nil => rfl
  | cons key rest ih =>
    cases hl : lookupMeta md key with
    | none => simpa [palabrasChain, hl] using ih
    | some vs =>
      obtain ⟨_, hall⟩ := wf_lookup hwf hl
      simpa [palabrasChain, hl] using hall

theorem joinPalabras_isOk {l : List (Option String)} (hall : l.all Option.isSome = true) :
    ∃ v, joinPalabras l = Except.ok v := by
  by_cases he : l.isEmpty = true
  · exact ⟨none, by simp [joinPalabras, he]⟩
  · simp only [Bool.not_eq_true] at he
    exact ⟨some (String.intercalate "; " (l.filterMap id)), by simp [joinPalabras, he, hall]⟩

/-- A remote object whose `dc.title` key is present with an EMPTY entry
list: `metadata["dc.title"][0]` raises IndexError. -/
def objTituloVacio : RemoteObject := ⟨[("dc.title", [])], none, none⟩

/-- Claim C2 fails on the code: on a metadata mapping with an empty
candidate value list the normalizer raises (IndexError on
`metadata["dc.title"][0]`) instead of returning a Record. -/
theorem c2_normalizer_cex :
    normalizeRemote objTituloVacio = Except.error "IndexError" := rfl

/-- Claim C2 (amended): the normalizer returns a Record without raising
PROVIDED every present metadata key has a non-empty entry list and
every entry carries a value; a raw object with nothing derivable maps
to the all-`None` Record (never 0 or ""), and the local year coercion
(`pd.to_numeric(..., errors="coerce")`) turns malformed and missing
cells into the missing value without raising. -/
theorem c2_normalizer_amended :
    (∀ obj : RemoteObject, metaWF obj.metadata = true →
      ∃ r, normalizeRemote obj = Except.ok r) ∧
    normalizeRemote ⟨[], none, none⟩ = Except.ok ⟨none, none, none, none, none⟩ ∧
    to_numeric_coerce (some "dos mil") = none ∧
    to_numeric_coerce none = none := by
  refine ⟨?_, rfl, rfl, rfl⟩
  intro obj hwf
  obtain ⟨t, ht⟩ := tituloDe_isOk hwf
  obtain ⟨a, ha⟩ := anioChain_isOk hwf anioKeys
  obtain ⟨p, hp⟩ := paisChain_isOk hwf paisKeys
  obtain ⟨w, hw⟩ := joinPalabras_isOk (palabrasChain_all hwf palabrasKeys)
  refine ⟨⟨t, a, p, ?_, w⟩, ?_⟩
  · exact match obj.handle with
      | some h => if h = "" then none else some ("https://cgspace.cgiar.org/handle/" ++ h)
      | none => none
  · simp only [normalizeRemote, ht, ha, hp, hw]
    rfl

/-- Concrete instance of the amended C2: a well-formed remote object
normalizes without raising. -/
theorem c2_normalizer_witness :
    ∃ r, normalizeRemote
      ⟨[("dc.title", [some "T"]), ("dcterms.issued", [some "2020-05-01"])],
        some "10568/1", none⟩ = Except.ok r :=
  c2_normalizer_amended.1
    ⟨[("dc.title", [some "T"]), ("dcterms.issued", [some "2020-05-01"])],
      some "10568/1", none⟩ (by decide)

/-- Claim C5: when the search call fails, the turn leaves
`st.session_state.results_df` untouched and surfaces the failure only
as one appended assistant message, which names the error kind
(`type(e).__name__`) and suggests switching to the local CSV backend. -/
theorem c5_remote_failure_keeps_results :
    ∀ (fl : Bool) (s : SessionState) (input : String) (e : ErrInfo),
      (turn fl s input (Except.error e)).results_df = s.results_df ∧
      (turn fl s input (Except.error e)).messages =
        s.messages ++ [⟨"user", input⟩, ⟨"assistant", respuestaError e⟩] ∧
      containsSubStr e.name (respuestaError e) = true ∧
      containsSubStr "CSV local (demo estable)" (respuestaError e) = true := by
  intro fl s input e
  refine ⟨rfl, ?_, ?_, ?_⟩
  · simp [turn]
  · rw [containsSubStr, respuestaError]
    simp only [toList_append, List.append_assoc]
    exact containsSub_append_left _
      (containsSub_append_left _ (containsSub_self_append _ _))
  · rw [containsSubStr, respuestaError]
    simp only [toList_append]
    exact containsSub_append_left _ (by decide)

/-- Two-row fixture for the country filter: one present country, one
missing. -/
def rCol : Record := ⟨some "A", some 2020, some "Colombia", none, none⟩

/-- Row with a missing country (`NaN` in the `País` column). -/
def rSinPais : Record := ⟨some "B", some 2019, none, none, none⟩

/-- Claim C6 fails on the code: with the selection equal to the full
distinct-country set, `isin` still drops the row whose country is
missing, so the filter does not return the original result set. -/
theorem c6_full_filter_cex :
    filtroPaisTodoSeleccionado [rCol, rSinPais] = [rCol] ∧
      filtroPaisTodoSeleccionado [rCol, rSinPais] ≠ [rCol, rSinPais] := by
  decide

/-- Claim C6 (amended): the full-selection country filter returns the
original result set unchanged PROVIDED every record's country is
present (in general it keeps, in order, exactly the records with a
present country). -/
theorem c6_full_filter_amended :
    ∀ rows : List Record, (∀ r ∈ rows, r.pais.isSome = true) →
      filtroPaisTodoSeleccionado rows = rows := by
  intro rows h
  unfold filtroPaisTodoSeleccionado
  by_cases hs : (paisesUnicos rows).isEmpty = true
  · rw [if_pos hs]
  · rw [if_neg hs, filterByCountries, if_neg hs, selectByMask_map_eq_filter]
    refine List.filter_eq_self.mpr ?_
    intro r hr
    obtain ⟨p, hp⟩ := Option.isSome_iff_exists.mp (h r hr)
    have hmem : p ∈ paisesUnicos rows := by
      refine mem_sortStr (mem_uniqueAux [] _ ?_ (by simp))
      exact List.mem_filterMap.mpr ⟨r, hr, hp⟩
    rw [isinPais, hp]
    exact List.elem_eq_true_of_mem hmem

/-- Concrete instance of the amended C6: on an all-countries-present
set, the full-selection filter is the identity. -/
theorem c6_full_filter_witness : filtroPaisTodoSeleccionado [rCol] = [rCol] :=
  c6_full_filter_amended [rCol] (by decide)

theorem contains_eq_decide_mem (l : List String) (a : String) : l.contains a = decide (a ∈ l) := by
  by_cases h : a ∈ l
  · rw [show l.contains a = List.elem a l from rfl, List.elem_eq_true_of_mem h, decide_eq_true h]
  · have h1 : List.elem a l = false := by
      cases hc : List.elem a l with
      | false => rfl
      | true => exact absurd (List.mem_of_elem_eq_true hc) h
    rw [show l.contains a = List.elem a l from rfl, h1, decide_eq_false h]

/-- Claim C7: the year chain tries `dcterms.issued` before
`dc.date.issued`; a present candidate whose first value has a 4-digit
prefix sets the year and stops the chain; a present-but-unparseable or
absent first candidate hands over to `dc.date.issued`; and the spec's
two scenario-3 fixtures evaluate as stated. -/
theorem c7_year_fallback :
    anioChain [("dcterms.issued", [some "2020-05-01"])] anioKeys = Except.ok (some 2020) ∧
    anioChain [("dc.date.issued", [some "not-a-date"])] anioKeys = Except.ok none ∧
    (∀ (md : Metadata) (e : Option String) (rest : List (Option String)),
      lookupMeta md "dcterms.issued" = some (e :: rest) → parse4Ok (e.getD "") = true →
      anioChain md anioKeys = Except.ok (some (dec4 (e.getD "")))) ∧
    (∀ md : Metadata, lookupMeta md "dcterms.issued" = none →
      anioChain md anioKeys = anioChain md ["dc.date.issued"]) ∧
    (∀ (md : Metadata) (e : Option String) (rest : List (Option String)),
      lookupMeta md "dcterms.issued" = some (e :: rest) → parse4Ok (e.getD "") = false →
      anioChain md anioKeys = anioChain md ["dc.date.issued"]) := by
  refine ⟨rfl, rfl, ?_, ?_, ?_⟩
  · intro md e rest hl hp
    simp [anioKeys, anioChain, hl, hp]
  · intro md hl
    simp [anioKeys, anioChain, hl]
  · intro md e rest hl hp
    simp [anioKeys, anioChain, hl, hp]

/-- Concrete instance of C7's stop-at-first-parse rule: a parseable
`dcterms.issued` wins even though `dc.date.issued` is also present. -/
theorem c7_year_fallback_witness :
    anioChain [("dcterms.issued", [some "1999-01-01"]), ("dc.date.issued", [some "2001"])]
      anioKeys = Except.ok (some 1999) :=
  c7_year_fallback.2.2.1
    [("dcterms.issued", [some "1999-01-01"]), ("dc.date.issued", [some "2001"])]
    (some "1999-01-01") [] rfl (by decide)

/-- Claim C8: the year slider keeps exactly the records whose year is
present and inside `[lo, hi]` (absent years are dropped), and with a
non-empty selection the country filter keeps exactly the records whose
country is present and selected (absent countries are dropped); both
preserve order. -/
theorem c8_filter_semantics :
    ∀ (rows : List Record) (lo hi : Int) (sel : List String), sel ≠ [] →
      filterByYearRange rows lo hi = rows.filter (anioEnRango lo hi) ∧
      filterByCountries rows sel = rows.filter (paisClaim sel) := by
  intro rows lo hi sel hsel
  constructor
  · rw [filterByYearRange, zipWith_and_map, selectByMask_map_eq_filter]
    refine List.filter_congr ?_
    intro r _
    cases h : r.anio <;> simp [geAnioB, leAnioB, anioEnRango, h]
  · obtain ⟨x, xs, rfl⟩ := List.exists_cons_of_ne_nil hsel
    rw [filterByCountries]
    rw [if_neg (by simp), selectByMask_map_eq_filter]
    refine List.filter_congr ?_
    intro r _
    cases h : r.pais with
    | none => simp [isinPais, paisClaim, h]
    | some p =>
      simp only [isinPais, paisClaim, h]
      exact contains_eq_decide_mem (x :: xs) p

/-- Concrete instance of C8 on the two-row fixture: the 2020 row passes
the `[2020, 2021]` slider, the row with the missing country is dropped
by the country filter. -/
theorem c8_filter_semantics_witness :
    filterByYearRange [rCol, rSinPais] 2020 2021 =
      [rCol, rSinPais].filter (anioEnRango 2020 2021) ∧
    filterByCountries [rCol, rSinPais] ["Colombia"] =
      [rCol, rSinPais].filter (paisClaim ["Colombia"]) :=
  c8_filter_semantics [rCol, rSinPais] 2020 2021 ["Colombia"] (by decide)

/-- Claim C9: the local search result is `head(max_results)` of the
year-descending-sorted match list — truncation after sorting — so its
length never exceeds `max_results`.  (The hypothesis says the frame is
well formed: without an `Año` column every row's year cell is missing,
which makes the unsorted branch agree with the sorted one.) -/
theorem c9_truncation_after_sort :
    ∀ (query : String) (df : LocalDF) (max_results : Nat),
      (df.hasAnio = false → ∀ r ∈ df.rows, r.anio = none) →
      (buscar_localmente query df max_results).rows.length ≤ max_results ∧
      (buscar_localmente query df max_results).rows =
        (sortPorAnioDesc (matchesLocal query df)).take max_results := by
  intro query df max_results hwf
  have key : (buscar_localmente query df max_results).rows =
      (sortPorAnioDesc (matchesLocal query df)).take max_results := by
    unfold buscar_localmente matchesLocal
    cases hb1 : decide (query = "") with
    | true => simp [hb1, emptyDF, sortPorAnioDesc, List.insertionSort]
    | false =>
      cases hb2 : df.rows.isEmpty with
      | true => simp [hb1, hb2, emptyDF, sortPorAnioDesc, List.insertionSort]
      | false =>
        cases hb3 : (columnas_texto df).isEmpty with
        | true => simp [hb1, hb2, hb3, emptyDF, sortPorAnioDesc, List.insertionSort]
        | false =>
          simp only [hb1, hb2, hb3, Bool.or_false, Bool.false_or, Bool.false_eq_true,
            if_false]
          by_cases hA : df.hasAnio = true
          · simp [hA]
          · rw [if_neg hA]
            simp only [Bool.not_eq_true] at hA
            have hnone : ∀ r ∈ selectByMask df.rows
                (df.rows.map (maskRow (lowerChars query) (columnas_texto df))),
                r.anio = none :=
              fun r hr => hwf hA r (mem_selectByMask _ _ hr)
            have hsorteq : sortPorAnioDesc (selectByMask df.rows
                (df.rows.map (maskRow (lowerChars query) (columnas_texto df)))) =
                selectByMask df.rows
                  (df.rows.map (maskRow (lowerChars query) (columnas_texto df))) := by
              refine insertionSort_of_forall ?_
              intro x hx y hy
              rw [leAnioDesc, hnone x hx, hnone y hy]
            rw [hsorteq]
  refine ⟨?_, key⟩
  rw [key]
  exact List.length_take_le _ _

/-- Concrete instance of C9: with a cap of 1 on a two-match frame, the
result is the first element of the sorted match list (the most recent
match), and its length is within the cap. -/
theorem c9_truncation_after_sort_witness :
    (buscar_localmente "a" ⟨true, true, true, true, [rSinPais, rCol]⟩ 1).rows.length ≤ 1 ∧
    (buscar_localmente "a" ⟨true, true, true, true, [rSinPais, rCol]⟩ 1).rows =
      (sortPorAnioDesc (matchesLocal "a" ⟨true, true, true, true, [rSinPais, rCol]⟩)).take 1 :=
  c9_truncation_after_sort "a" ⟨true, true, true, true, [rSinPais, rCol]⟩ 1 (by decide)

/-- Claim C10: the country chain commits on key presence alone — when
the first present candidate key's first entry lacks a value, the
country is `None` even if a later candidate carries a usable value. -/
theorem c10_country_presence_commit :
    (∀ (md : Metadata) (rest : List (Option String)),
      lookupMeta md "cg.country" = some (none :: rest) →
      paisChain md paisKeys = Except.ok none) ∧
    (∀ (md : Metadata) (rest : List (Option String)),
      lookupMeta md "cg.country" = none →
      lookupMeta md "cg.coverage.country" = some (none :: rest) →
      paisChain md paisKeys = Except.ok none) ∧
    (∀ (md : Metadata) (rest : List (Option String)),
      lookupMeta md "cg.country" = none →
      lookupMeta md "cg.coverage.country" = none →
      lookupMeta md "dc.coverage.spatial" = some (none :: rest) →
      paisChain md paisKeys = Except.ok none) := by
  refine ⟨?_, ?_, ?_⟩
  · intro md rest h1
    simp [paisKeys, paisChain, h1]
  · intro md rest h1 h2
    simp [paisKeys, paisChain, h1, h2]
  · intro md rest h1 h2 h3
    simp [paisKeys, paisChain, h1, h2, h3]

/-- Concrete instance of C10: `cg.country` present with a value-less
first entry beats `cg.coverage.country` carrying "Kenya". -/
theorem c10_country_presence_commit_witness :
    paisChain [("cg.country", [none]), ("cg.coverage.country", [some "Kenya"])] paisKeys =
      Except.ok none :=
  c10_country_presence_commit.1
    [("cg.country", [none]), ("cg.coverage.country", [some "Kenya"])] [] rfl
